import Mathlib

/-!
Verification of the ingestion-and-retrieval pipeline of a multimodal
archive demo (NARA media search).  The definitions below are a shallow
embedding of the Python sources:

* `src/app.py`                      - query pipeline (the `/search` route)
* `src/setup/01_nara_scrape.py`     - catalog acquirer
* `src/setup/02_mp4_processing.py`  - video segmenter
* `src/setup/03_mp4_embedding.py`   - video-chunk ingestion
* `src/setup/04_image_embedding.py` - document-media ingestion

External capabilities (embedding, transcription, reranking, downloads,
ffmpeg extraction, image decoding) are modelled as oracle functions packed
into environment structures; an `Option` result models a call that can
fail (a caught exception / a `None` return).  The media timestamps that
the Python code keeps in floats are modelled as `ℚ`; every concrete value
appearing in the claims (10, 20, 23, 10.5, ...) is exactly representable,
so rational arithmetic agrees with the float arithmetic of the source on
everything proved here.
-/

namespace NasaDemo

/-! ## Query pipeline (`src/app.py`) -/

/-- A record as produced by the aggregation pipeline of `app.py` after the
`$project` stage (lines 122-135): `naId`, `title`, `file_type`,
`start_timestamp`, the vector-similarity `score`, and the
`chunk_text_content` key that the rerank step reads back (absent keys are
`none`). -/
structure PRec where
  naId : Option String
  title : Option String
  chunk_text_content : Option String
  file_type : String
  score : ℚ
deriving DecidableEq

/-- Lines 106-113 of `app.py`: the loop building `mapped_file_types` from the
request's `filter_file_types`: an `mp4` entry is expanded to
`mp4, video_chunk`; every other entry is appended unchanged. -/
def expandFilter (filter_file_types : List String) : List String :=
  filter_file_types.foldl
    (fun acc ft => if ft = "mp4" then acc ++ ["mp4", "video_chunk"] else acc ++ [ft]) []

/-- A parsed JSON request body for `/search`, following the request shape
of the spec (JSON object with a required `query_text` and optional
`filter_file_types` / `use_reranker` keys); a `none` field models an
absent key.  An absent or null body is modelled as `none` at the call site
of `search`.  For such object bodies the Python guard
`not data or "query_text" not in data` holds exactly when the
`query_text` key is absent (an object owning a key is non-empty, hence
truthy). -/
structure SearchBody where
  query_text : Option String
  filter_file_types : Option (List String)
  use_reranker : Option Bool

/-- External collaborators of the `/search` route: `embed` is
`get_embedding` (`none` = the Voyage call raised, caught, `None`
returned); `vectorSearch` is the Mongo collection (`none` = `init_mongo`
failed, otherwise the candidate list that the `$vectorSearch` stage
returns for the query embedding, in descending similarity order - the
`$match` stage built by `app.py` is applied to it in `preRerank`);
`rerank` is the Voyage reranker (`none` = the call raised; `some idxs` =
the `r.index` fields of `rerank_response.results` in relevance order). -/
structure QueryEnv where
  embed : String → Option (List ℚ)
  vectorSearch : Option (List ℚ → List PRec)
  rerank : String → List String → Option (List Nat)

/-- Lines 163-168 of `app.py`: the rerank text surrogate
`r.get("chunk_text_content") or r.get("title") or ""` (Python `or` falls
through on `None` and on the empty string). -/
def surrogateText (r : PRec) : String :=
  let t := r.chunk_text_content.getD ""
  if t ≠ "" then t else r.title.getD ""

/-- Lines 169-180 of `app.py`: the rerank call inside `try`: on an exception
(`none` from the oracle, or an out-of-range index raising while building
`reranked`) the pre-rerank `results` list is kept unchanged. -/
def applyRerank (env : QueryEnv) (query_text : String) (results : List PRec) : List PRec :=
  match env.rerank query_text (results.map surrogateText) with
  | none => results
  | some idxs =>
    match idxs.mapM (fun i => results.get? i) with
    | none => results
    | some reranked => reranked

/-- The result list in vector-similarity order before any reranking: the
`$vectorSearch` candidates, post-filtered by
`file_type ∈ mapped_file_types` when a non-empty filter list was supplied
(`app.py` lines 106-120: the `$match` stage is added only then). -/
def preRerank (vs : List ℚ → List PRec) (emb : List ℚ) (fft : Option (List String)) :
    List PRec :=
  let raw := vs emb
  match fft with
  | some fts =>
    if 0 < fts.length then raw.filter (fun r => r.file_type ∈ expandFilter fts) else raw
  | none => raw

/-- The HTTP outcome of the `/search` route: a JSON result list (status
200) or a structured error (status, message). -/
inductive SearchResp where
  | ok (results : List PRec)
  | err (status : Nat) (msg : String)
deriving DecidableEq

/-- The route's outcome together with which external effects were reached:
whether `get_embedding` was called, whether the Mongo collection was
touched (lazy `init_mongo` / aggregation), and whether the reranker was
called. -/
structure SearchTrace where
  resp : SearchResp
  embedCalled : Bool
  storeAccessed : Bool
  rerankCalled : Bool
deriving DecidableEq

/-- Lines 66-206 of `app.py`: the `/search` route body.  Steps in source
order: missing-input guard, query embedding (`if not embedding` also
treats an empty list as failure), pipeline construction, lazy store
initialisation, aggregation, optional rerank (only when enabled and more
than one result), response. -/
def search (env : QueryEnv) (body : Option SearchBody) : SearchTrace :=
  match body with
  | none => ⟨.err 400 "query_text is required", false, false, false⟩
  | some data =>
    match data.query_text with
    | none => ⟨.err 400 "query_text is required", false, false, false⟩
    | some query_text =>
      let use_reranker := data.use_reranker.getD true
      match env.embed query_text with
      | none => ⟨.err 500 "Failed to generate embedding", true, false, false⟩
      | some embedding =>
        if embedding = [] then ⟨.err 500 "Failed to generate embedding", true, false, false⟩
        else
          match env.vectorSearch with
          | none => ⟨.err 500 "Database connection failed", true, true, false⟩
          | some vs =>
            let results := preRerank vs embedding data.filter_file_types
            if use_reranker ∧ 1 < results.length then
              ⟨.ok (applyRerank env query_text results), true, true, true⟩
            else
              ⟨.ok results, true, true, false⟩

/-- Membership in the `mapped_file_types` accumulator: an element is there
iff it was in the accumulator already, or occurs in the remaining input,
or is the literal `video_chunk` and `mp4` occurs in the remaining
input. -/
theorem mem_expandFilter_foldl (l : List String) (acc : List String) (x : String) :
    (x ∈ l.foldl
        (fun acc ft => if ft = "mp4" then acc ++ ["mp4", "video_chunk"] else acc ++ [ft])
        acc) ↔
      x ∈ acc ∨ x ∈ l ∨ (x = "video_chunk" ∧ "mp4" ∈ l) := by
  induction l generalizing acc with
  | nil => simp
  | cons ft rest ih =>
    simp only [List.foldl_cons]
    by_cases hft : ft = "mp4"
    · subst hft
      rw [if_pos rfl, ih]
      simp [List.mem_append] <;> tauto
    · rw [if_neg hft, ih]
      have hmp : ¬ ("mp4" = ft) := fun h => hft h.symm
      simp [List.mem_append, hmp] <;> tauto

/-- Membership in the expanded filter set. -/
theorem mem_expandFilter (l : List String) (x : String) :
    x ∈ expandFilter l ↔ x ∈ l ∨ (x = "video_chunk" ∧ "mp4" ∈ l) := by
  unfold expandFilter
  rw [mem_expandFilter_foldl]
  simp

/-- Claim C4 counterexample: the expansion is not an "if and only if" in
the stated direction - a supplied filter list that itself contains the
literal `video_chunk` yields an expanded set containing `video_chunk`
although the original list does not contain `mp4`. -/
theorem C4_counterexample :
    "video_chunk" ∈ expandFilter ["video_chunk"] ∧
      "mp4" ∉ (["video_chunk"] : List String) := by
  decide

/-- Claim C4 (amended): the expanded filter set contains `video_chunk` iff
the original list contains `mp4` or the literal `video_chunk` itself;
every entry other than `video_chunk` is passed through unchanged; hence a
filter containing `mp4` matches records of kind `mp4` and of kind
`video_chunk`, and a filter containing only `jpg` never matches a
`video_chunk` record. -/
theorem C4_filter_expansion (l : List String) :
    ("video_chunk" ∈ expandFilter l ↔ ("mp4" ∈ l ∨ "video_chunk" ∈ l)) ∧
    (∀ x : String, x ≠ "video_chunk" → (x ∈ expandFilter l ↔ x ∈ l)) ∧
    ("mp4" ∈ l → "mp4" ∈ expandFilter l ∧ "video_chunk" ∈ expandFilter l) ∧
    "video_chunk" ∉ expandFilter ["jpg"] := by
  refine ⟨?_, ?_, ?_, by decide⟩
  · rw [mem_expandFilter]; tauto
  · intro x hx
    rw [mem_expandFilter]
    constructor
    · rintro (h | ⟨h1, h2⟩)
      · exact h
      · exact absurd h1 hx
    · intro h; exact Or.inl h
  · intro h
    constructor
    · rw [mem_expandFilter]; exact Or.inl h
    · rw [mem_expandFilter]; exact Or.inr ⟨rfl, h⟩

/-- Witness for C4: at the concrete filter `["mp4"]`, the expanded set
contains both `mp4` and `video_chunk`. -/
theorem C4_filter_expansion_witness :
    "mp4" ∈ expandFilter ["mp4"] ∧ "video_chunk" ∈ expandFilter ["mp4"] :=
  (C4_filter_expansion ["mp4"]).2.2.1 (by decide)

/-- Claim C5: with reranking enabled, at least two candidate results and a
reranker call that raises/fails, the route returns status 200 whose result
list equals the pre-rerank vector-similarity order; no error is surfaced
to the caller. -/
theorem C5_rerank_fallback (env : QueryEnv) (data : SearchBody) (query_text : String)
    (emb : List ℚ) (vs : List ℚ → List PRec)
    (hq : data.query_text = some query_text)
    (hr : data.use_reranker.getD true = true)
    (he : env.embed query_text = some emb)
    (hne : emb ≠ [])
    (hvs : env.vectorSearch = some vs)
    (hlen : 1 < (preRerank vs emb data.filter_file_types).length)
    (hfail : env.rerank query_text
        ((preRerank vs emb data.filter_file_types).map surrogateText) = none) :
    search env (some data) =
      ⟨.ok (preRerank vs emb data.filter_file_types), true, true, true⟩ := by
  obtain ⟨q, fft, ur⟩ := data
  simp only at hq hr hlen hfail
  subst hq
  simp only [search, he, hvs, if_neg hne, hr, applyRerank, hfail]
  rw [if_pos]
  exact ⟨trivial, hlen⟩

/-- Witness environment for C5: a query embedder that succeeds, a store
returning two records, a reranker that always fails. -/
def envC5 : QueryEnv :=
  ⟨fun _ => some [1],
   some (fun _ => [⟨some "1", some "a", none, "jpg", 2⟩, ⟨some "2", some "b", none, "jpg", 1⟩]),
   fun _ _ => none⟩

/-- Witness body for C5. -/
def bodyC5 : SearchBody := ⟨some "q", none, none⟩

/-- Witness for C5: at the concrete environment `envC5` (failing
reranker, two results), the route returns 200 with the vector order. -/
theorem C5_rerank_fallback_witness :
    search envC5 (some bodyC5) =
      ⟨.ok (preRerank
          (fun _ => [⟨some "1", some "a", none, "jpg", 2⟩, ⟨some "2", some "b", none, "jpg", 1⟩])
          [1] bodyC5.filter_file_types), true, true, true⟩ :=
  C5_rerank_fallback envC5 bodyC5 "q" [1]
    (fun _ => [⟨some "1", some "a", none, "jpg", 2⟩, ⟨some "2", some "b", none, "jpg", 1⟩])
    rfl rfl rfl (by decide) rfl (by decide) rfl

/-- Claim C6: the `/search` route answers with the missing-input error iff
the request body is absent or lacks the `query_text` key; in that case it
returns immediately with no embedding call and no store access; a body
carrying the `query_text` key is never rejected with the missing-input
error. -/
theorem C6_missing_input (env : QueryEnv) (body : Option SearchBody) :
    ((search env body).resp = .err 400 "query_text is required" ↔
        body.bind SearchBody.query_text = none) ∧
    (body.bind SearchBody.query_text = none →
      search env body = ⟨.err 400 "query_text is required", false, false, false⟩) := by
  cases body with
  | none => exact ⟨by simp [search], fun _ => rfl⟩
  | some data =>
    cases hq : data.query_text with
    | none =>
      refine ⟨?_, ?_⟩
      · simp [search, hq, Option.bind]
      · intro _
        simp [search, hq]
    | some qt =>
      refine ⟨?_, ?_⟩
      · simp only [Option.bind, hq]
        constructor
        · intro hresp
          exfalso
          simp only [search, hq] at hresp
          split at hresp
          · simp at hresp
          · split at hresp
            · simp at hresp
            · split at hresp
              · simp at hresp
              · split at hresp
                · simp at hresp
                · simp at hresp
        · intro h; exact absurd h (by simp)
      · intro h
        exfalso
        simp only [Option.bind, hq] at h
        exact Option.noConfusion h

/-- Witness for C6: at an absent body the route returns the missing-input
error with no embedding call and no store access. -/
theorem C6_missing_input_witness :
    search ⟨fun _ => none, none, fun _ _ => none⟩ none =
      ⟨.err 400 "query_text is required", false, false, false⟩ :=
  (C6_missing_input ⟨fun _ => none, none, fun _ _ => none⟩ none).2 rfl

/-! ## Segmenter (`src/setup/02_mp4_processing.py`) -/

/-- Python `int()` on a float duration: truncation toward zero. -/
def pyInt (q : ℚ) : ℤ :=
  if q < 0 then -(⌊-q⌋) else ⌊q⌋

/-- Python `range(0, stop, step)` for `step > 0`: the multiples of `step`
below `stop` (empty for `step = 0`, where Python would raise). -/
def pyRange (stop step : Nat) : List Nat :=
  if step = 0 then [] else (List.range ((stop + step - 1) / step)).map (fun k => k * step)

/-- Python `f"{i:03d}"`: decimal digits, left-padded with zeros to width
three. -/
def pad3 (n : Nat) : String :=
  let s := toString n
  if s.length < 3 then String.mk (List.replicate (3 - s.length) '0') ++ s else s

/-- Lines 89 and 122-123 of `02_mp4_processing.py`: the frame extraction
timestamps of one chunk, `start_time + j * (chunk_duration /
frames_per_chunk)` for `j = 0 .. frames_per_chunk - 1`. -/
def frameTimes (start_time chunk_duration frames_per_chunk : Nat) : List ℚ :=
  (List.range frames_per_chunk).map
    (fun (j : ℕ) => (start_time : ℚ) + (j : ℚ) * ((chunk_duration : ℚ) / frames_per_chunk))

/-- One element of the manifest's `chunks` list (lines 137-143). -/
structure ChunkEntry where
  chunk_id : String
  start_time : Nat
  end_time : ℚ
  audio_file : String
  frame_files : List String
deriving DecidableEq

/-- The per-video metadata JSON (lines 92-96 and 145-148). -/
structure Manifest where
  source_file : String
  duration_seconds : ℚ
  chunks : List ChunkEntry
deriving DecidableEq

/-- The ffmpeg collaborator: whether an audio extraction to a given output
path, or a frame extraction to a given path at a given seek time,
succeeds. -/
structure SegEnv where
  extractAudio : String → Bool
  extractFrame : String → ℚ → Bool

/-- The filesystem is the list of paths that exist; a write makes the path
exist. -/
def addPath (fs : List String) (p : String) : List String :=
  if p ∈ fs then fs else fs ++ [p]

/-- Lines 110-118: extract the audio snippet unless the output file
already exists; a failed extraction is logged and leaves the filesystem
unchanged. -/
def runAudioExtract (env : SegEnv) (fs : List String) (p : String) : List String :=
  if p ∈ fs then fs else if env.extractAudio p then fs ++ [p] else fs

/-- Lines 127-134: extract one frame at a seek time unless the output file
already exists; a failed extraction leaves the filesystem unchanged. -/
def runFrameExtract (env : SegEnv) (fs : List String) (p : String) (t : ℚ) : List String :=
  if p ∈ fs then fs else if env.extractFrame p t then fs ++ [p] else fs

/-- Lines 98-143, the body of the per-chunk loop for the chunk of index
`i` starting at `start`: clamp the end time to the duration, attempt the
audio extraction, attempt the frame extractions at the `frameTimes` seek
offsets, and build the manifest entry - which records the audio path and
the whole expected frame path list (`frame_paths` is appended to before
the extraction is attempted, line 125). -/
def segChunk (env : SegEnv) (videoOut videoName : String) (duration : ℚ)
    (chunk_duration frames_per_chunk : Nat) (fs : List String) (i start : Nat) :
    List String × ChunkEntry :=
  let end_time : ℚ :=
    if (start : ℚ) + chunk_duration > duration then duration else (start : ℚ) + chunk_duration
  let chunk_name := videoName ++ "_chunk_" ++ pad3 i
  let chunk_dir := videoOut ++ "/" ++ chunk_name
  let audio_path := chunk_dir ++ "/" ++ chunk_name ++ ".mp3"
  let fs1 := runAudioExtract env fs audio_path
  let framePaths := (List.range frames_per_chunk).map
    (fun j => chunk_dir ++ "/" ++ chunk_name ++ "_frame_" ++ toString (j + 1) ++ ".jpg")
  let fs2 := (framePaths.zip (frameTimes start chunk_duration frames_per_chunk)).foldl
    (fun fs pt => runFrameExtract env fs pt.1 pt.2) fs1
  (fs2, ⟨chunk_name, start, end_time, audio_path, framePaths⟩)

/-- The fold step of the per-chunk loop: thread the filesystem, append the
manifest entry. -/
def segStep (env : SegEnv) (videoOut videoName : String) (duration : ℚ)
    (chunk_duration frames_per_chunk : Nat) (acc : List String × List ChunkEntry)
    (p : Nat × Nat) : List String × List ChunkEntry :=
  let r := segChunk env videoOut videoName duration chunk_duration frames_per_chunk acc.1 p.1 p.2
  (r.1, acc.2 ++ [r.2])

/-- Lines 70-149 for one successfully probed video: iterate the chunk loop
over `enumerate(range(0, int(duration), chunk_duration))`, then write the
single metadata JSON file (unconditionally, after all chunks were
attempted). -/
def segmentOne (env : SegEnv) (fs : List String) (output_dir video_name source_file : String)
    (duration : ℚ) (chunk_duration frames_per_chunk : Nat) : List String × Manifest :=
  let videoOut := output_dir ++ "/" ++ video_name
  let acc := ((pyRange (pyInt duration).toNat chunk_duration).enum).foldl
    (segStep env videoOut video_name duration chunk_duration frames_per_chunk) (fs, [])
  let metadata_path := videoOut ++ "/" ++ video_name ++ "_metadata.json"
  (addPath acc.1 metadata_path, ⟨source_file, duration, acc.2⟩)

/-- The manifest entry of chunk `(i, start)` does not depend on the
filesystem or the extraction outcomes. -/
theorem segChunk_snd (env : SegEnv) (videoOut videoName : String) (duration : ℚ)
    (S N : Nat) (fs : List String) (i start : Nat) :
    (segChunk env videoOut videoName duration S N fs i start).2 =
      ⟨videoName ++ "_chunk_" ++ pad3 i, start,
       if (start : ℚ) + S > duration then duration else (start : ℚ) + S,
       videoOut ++ "/" ++ (videoName ++ "_chunk_" ++ pad3 i) ++ "/" ++
         (videoName ++ "_chunk_" ++ pad3 i) ++ ".mp3",
       (List.range N).map (fun j => videoOut ++ "/" ++ (videoName ++ "_chunk_" ++ pad3 i) ++
         "/" ++ (videoName ++ "_chunk_" ++ pad3 i) ++ "_frame_" ++ toString (j + 1) ++ ".jpg")⟩ :=
  rfl

/-- The entries accumulated by the chunk loop are a `map` over the
enumerated start times, independent of the threaded filesystem. -/
theorem segLoop_entries (env : SegEnv) (videoOut videoName : String) (duration : ℚ)
    (S N : Nat) (l : List (Nat × Nat)) (fs : List String) (acc0 : List ChunkEntry) :
    (l.foldl (segStep env videoOut videoName duration S N) (fs, acc0)).2 =
      acc0 ++ l.map (fun p =>
        (segChunk env videoOut videoName duration S N [] p.1 p.2).2) := by
  induction l generalizing fs acc0 with
  | nil => simp
  | cons p rest ih =>
    simp only [List.foldl_cons, List.map_cons]
    rw [segStep, ih]
    have hfs : (segChunk env videoOut videoName duration S N fs p.1 p.2).2 =
        (segChunk env videoOut videoName duration S N [] p.1 p.2).2 := rfl
    rw [hfs]
    simp

/-- The manifest produced by `segmentOne`, in closed form. -/
theorem segmentOne_manifest (env : SegEnv) (fs : List String)
    (od vn sf : String) (duration : ℚ) (S N : Nat) :
    (segmentOne env fs od vn sf duration S N).2 =
      ⟨sf, duration,
        ((pyRange (pyInt duration).toNat S).enum).map (fun p =>
          (segChunk env (od ++ "/" ++ vn) vn duration S N [] p.1 p.2).2)⟩ := by
  simp only [segmentOne]
  rw [segLoop_entries]
  simp

/-- Length of `pyRange` for a positive step. -/
theorem pyRange_length (stop step : Nat) (h : step ≠ 0) :
    (pyRange stop step).length = (stop + step - 1) / step := by
  unfold pyRange
  rw [if_neg h]
  simp

/-- Elements of `pyRange`: position `k` holds `k * step`. -/
theorem pyRange_getElem (stop step : Nat) (h : step ≠ 0) (k : Nat)
    (hk : k < (pyRange stop step).length) :
    (pyRange stop step)[k] = k * step := by
  have hk2 : k < ((List.range ((stop + step - 1) / step)).map (fun k => k * step)).length := by
    unfold pyRange at hk
    rw [if_neg h] at hk
    exact hk
  unfold pyRange
  simp only [if_neg h]
  rw [List.getElem_map]
  congr 1
  exact List.getElem_range _ _

/-- The chunk list of `segmentOne` has one entry per element of the
Python `range`. -/
theorem segmentOne_chunks_length (env : SegEnv) (fs : List String) (od vn sf : String)
    (duration : ℚ) (S N : Nat) (hS : S ≠ 0) :
    (segmentOne env fs od vn sf duration S N).2.chunks.length =
      ((pyInt duration).toNat + S - 1) / S := by
  rw [segmentOne_manifest]
  simp [List.enum_length, pyRange_length _ _ hS]

/-- The `i`-th manifest chunk entry of `segmentOne` is the entry that
`segChunk` builds for index `i` and start time `i * S`. -/
theorem segmentOne_chunk_get (env : SegEnv) (fs : List String) (od vn sf : String)
    (duration : ℚ) (S N : Nat) (hS : S ≠ 0) (i : Nat)
    (hi : i < (segmentOne env fs od vn sf duration S N).2.chunks.length) :
    (segmentOne env fs od vn sf duration S N).2.chunks[i] =
      (segChunk env (od ++ "/" ++ vn) vn duration S N [] i (i * S)).2 := by
  have hi2 : i < (pyRange (pyInt duration).toNat S).length := by
    rw [segmentOne_chunks_length env fs od vn sf duration S N hS] at hi
    rw [pyRange_length _ _ hS]
    exact hi
  simp only [segmentOne_manifest]
  have hi3 : i < (pyRange (pyInt duration).toNat S).enum.length := by
    rw [List.enum_length]; exact hi2
  rw [List.getElem_map, List.getElem_enum]
  rw [pyRange_getElem _ _ hS i hi2]

/-- Ceiling division over `ℚ` agrees with the `(d + S - 1) / S`
formula. -/
theorem ceil_cast_div (d S : Nat) (hS : 0 < S) :
    ⌈(d : ℚ) / (S : ℚ)⌉₊ = (d + S - 1) / S := by
  have hS0 : (0 : ℚ) < (S : ℚ) := by exact_mod_cast hS
  rcases Nat.eq_zero_or_pos d with hd | hd
  · subst hd
    simp [Nat.div_eq_of_lt (show S - 1 < S by omega)]
  · obtain ⟨k, rfl⟩ : ∃ k, d = k + 1 := ⟨d - 1, by omega⟩
    have hn : (k + 1 + S - 1) / S = k / S + 1 := by
      have h1 : k + 1 + S - 1 = k + S := by omega
      rw [h1, Nat.add_div_right _ hS]
    rw [hn, Nat.ceil_eq_iff (Nat.succ_ne_zero _)]
    have hq : S * (k / S) + k % S = k := Nat.div_add_mod k S
    have hr : k % S < S := Nat.mod_lt k hS
    constructor
    · rw [lt_div_iff₀ hS0]
      have hle : (k / S) * S ≤ k := Nat.div_mul_le_self k S
      have hc : ((k / S + 1 - 1 : ℕ) : ℚ) = ((k / S : ℕ) : ℚ) := by norm_num
      rw [hc]
      exact_mod_cast Nat.lt_succ_of_le hle
    · rw [div_le_iff₀ hS0]
      have hgoal : k + 1 ≤ (k / S + 1) * S := by
        have hexp : (k / S + 1) * S = S * (k / S) + S := by ring
        rw [hexp]
        linarith
      exact_mod_cast hgoal

/-- For a non-negative duration, `pyInt` is the floor, and its value cast
back to `ℚ` is at most the duration. -/
theorem pyInt_le (D : ℚ) (hD : 0 ≤ D) : (((pyInt D).toNat : ℚ)) ≤ D := by
  unfold pyInt
  rw [if_neg (not_lt.mpr hD)]
  have h0 : (0 : ℤ) ≤ ⌊D⌋ := Int.floor_nonneg.mpr hD
  calc ((⌊D⌋.toNat : ℚ)) = ((⌊D⌋ : ℤ) : ℚ) := by exact_mod_cast Int.toNat_of_nonneg h0
  _ ≤ D := Int.floor_le D

/-- A chunk that is not the last one ends within the duration. -/
theorem chunk_not_last_bound (D : ℚ) (S i : Nat) (hD : 0 ≤ D) (hS : 0 < S)
    (h : i + 1 < ((pyInt D).toNat + S - 1) / S) :
    ((i * S : ℕ) : ℚ) + (S : ℚ) ≤ D := by
  set d := (pyInt D).toNat with hd
  have hd1 : 1 ≤ d := by
    by_contra hc
    have hz : d = 0 := by omega
    rw [hz] at h
    have h0 : (0 + S - 1) / S = 0 := Nat.div_eq_of_lt (by omega)
    omega
  have hlen : (d + S - 1) / S = (d - 1) / S + 1 := by
    have h1 : d + S - 1 = (d - 1) + S := by omega
    rw [h1, Nat.add_div_right _ hS]
  rw [hlen] at h
  have h2 : i + 1 ≤ (d - 1) / S := by omega
  have h3 : (i + 1) * S ≤ d - 1 := (Nat.le_div_iff_mul_le hS).mp h2
  have h4 : i * S + S ≤ d - 1 := by
    have hexp : (i + 1) * S = i * S + S := by ring
    omega
  have h5 : ((i * S : ℕ) : ℚ) + (S : ℚ) ≤ ((d - 1 : ℕ) : ℚ) := by exact_mod_cast h4
  have h6 : ((d - 1 : ℕ) : ℚ) ≤ ((d : ℕ) : ℚ) := by exact_mod_cast Nat.sub_le d 1
  have h7 : ((d : ℕ) : ℚ) ≤ D := pyInt_le D hD
  linarith

/-- The last chunk's unclamped end reaches the (integral) duration. -/
theorem chunk_last_bound (n S : Nat) (hn : 0 < n) (hS : 0 < S) :
    (n : ℚ) ≤ ((((n + S - 1) / S - 1) * S : ℕ) : ℚ) + (S : ℚ) := by
  obtain ⟨m, rfl⟩ : ∃ m, n = m + 1 := ⟨n - 1, by omega⟩
  have hlen : (m + 1 + S - 1) / S = m / S + 1 := by
    have h1 : m + 1 + S - 1 = m + S := by omega
    rw [h1, Nat.add_div_right _ hS]
  rw [hlen]
  simp only [Nat.add_sub_cancel]
  have hq : S * (m / S) + m % S = m := Nat.div_add_mod m S
  have hr : m % S < S := Nat.mod_lt _ hS
  have hnat : m + 1 ≤ m / S * S + S := by
    rw [mul_comm S (m / S)] at hq
    linarith
  exact_mod_cast hnat

/-- Claim C2 (amended): for chunk size `S > 0` the Segmenter produces
exactly `ceil(int(D)/S)` chunks (`int()` truncates, so this equals
`ceil(D/S)` only when the probed duration `D` is a whole number of
seconds); every chunk's end time never exceeds `D`; chunk `i` starts at
`i*S` and every chunk other than the last ends exactly at start + `S`;
and when `D` is a positive whole number of seconds the last chunk's end
time equals `D` exactly. -/
theorem C2_chunk_partition (env : SegEnv) (fs : List String) (od vn sf : String)
    (D : ℚ) (S N : Nat) (hD : 0 ≤ D) (hS : 0 < S) :
    ((segmentOne env fs od vn sf D S N).2.chunks.length =
        ⌈((pyInt D).toNat : ℚ) / (S : ℚ)⌉₊) ∧
    (∀ e ∈ (segmentOne env fs od vn sf D S N).2.chunks, e.end_time ≤ D) ∧
    (∀ i : Nat, ∀ hi : i < (segmentOne env fs od vn sf D S N).2.chunks.length,
      (segmentOne env fs od vn sf D S N).2.chunks[i].start_time = i * S) ∧
    (∀ i : Nat, ∀ hi : i < (segmentOne env fs od vn sf D S N).2.chunks.length,
      i + 1 < (segmentOne env fs od vn sf D S N).2.chunks.length →
      (segmentOne env fs od vn sf D S N).2.chunks[i].end_time =
        ((segmentOne env fs od vn sf D S N).2.chunks[i].start_time : ℚ) + S) ∧
    ((∃ n : Nat, D = (n : ℚ) ∧ 0 < n) →
      ∀ e, (segmentOne env fs od vn sf D S N).2.chunks.getLast? = some e →
        e.end_time = D) := by
  refine ⟨?_, ?_, ?_, ?_, ?_⟩
  · rw [segmentOne_chunks_length env fs od vn sf D S N hS.ne']
    rw [ceil_cast_div _ _ hS]
  · intro e he
    rw [segmentOne_manifest] at he
    simp only at he
    obtain ⟨p, hp, rfl⟩ := List.mem_map.mp he
    rw [segChunk_snd]
    simp only
    split_ifs with h
    · exact le_refl D
    · exact not_lt.mp h
  · intro i hi
    rw [segmentOne_chunk_get env fs od vn sf D S N hS.ne' i hi, segChunk_snd]
  · intro i hi hnext
    rw [segmentOne_chunk_get env fs od vn sf D S N hS.ne' i hi, segChunk_snd]
    simp only
    have hb : ((i * S : ℕ) : ℚ) + (S : ℚ) ≤ D := by
      apply chunk_not_last_bound D S i hD hS
      rw [segmentOne_chunks_length env fs od vn sf D S N hS.ne'] at hnext
      exact hnext
    rw [if_neg (not_lt.mpr hb)]
  · rintro ⟨n, rfl, hn⟩ e hlast
    have hdn : (pyInt ((n : ℚ))).toNat = n := by
      unfold pyInt
      rw [if_neg (not_lt.mpr hD)]
      rw [Int.floor_natCast]
      exact Int.toNat_natCast n
    have hlen := segmentOne_chunks_length env fs od vn sf ((n : ℚ)) S N hS.ne'
    rw [hdn] at hlen
    have hlen0 : 0 < (segmentOne env fs od vn sf ((n : ℚ)) S N).2.chunks.length := by
      rw [hlen]
      have h1 : 1 * S ≤ n + S - 1 := by omega
      exact (Nat.le_div_iff_mul_le hS).mpr h1
    rw [List.getLast?_eq_getElem?] at hlast
    rw [List.getElem?_eq_getElem (by omega)] at hlast
    have he : e = (segmentOne env fs od vn sf ((n : ℚ)) S N).2.chunks[
        (segmentOne env fs od vn sf ((n : ℚ)) S N).2.chunks.length - 1] :=
      (Option.some.inj hlast).symm
    subst he
    rw [segmentOne_chunk_get env fs od vn sf ((n : ℚ)) S N hS.ne' _ (by omega), segChunk_snd]
    simp only
    split_ifs with h
    · rfl
    · have hge : (n : ℚ) ≤
          ((((segmentOne env fs od vn sf ((n : ℚ)) S N).2.chunks.length - 1) * S : ℕ) : ℚ) +
            (S : ℚ) := by
        rw [hlen]
        exact chunk_last_bound n S hn hS
      have hle := not_lt.mp h
      push_cast at hge hle ⊢
      linarith

/-- An extraction environment in which every ffmpeg call fails. -/
def envSegFail : SegEnv := ⟨fun _ => false, fun _ _ => false⟩

/-- Claim C2 counterexample: for a video of duration `10.5` seconds and
chunk size `10`, the code (which enumerates `range(0, int(duration),
chunk_duration)`) produces a single chunk whose end time is `10`, whereas
the claim requires `ceil(10.5/10) = 2` chunks and a last end time of
`10.5`. -/
theorem C2_counterexample :
    ((segmentOne envSegFail [] "out" "v" "src" (21/2 : ℚ) 10 5).2.chunks.map
        ChunkEntry.end_time = [10]) ∧
    ⌈(21/2 : ℚ) / 10⌉₊ = 2 ∧ ((10 : ℚ) ≠ 21/2) := by
  refine ⟨?_, ?_, by norm_num⟩
  · rw [segmentOne_manifest]
    have h1 : (pyInt (21/2 : ℚ)).toNat = 10 := by
      have h2 : ⌊(21/2 : ℚ)⌋ = 10 := by
        rw [Int.floor_eq_iff]
        norm_num
      unfold pyInt
      rw [if_neg (by norm_num), h2]
      rfl
    rw [h1]
    have h3 : pyRange 10 10 = [0] := by
      unfold pyRange
      norm_num [List.range_succ]
    rw [h3]
    simp only [List.enum_singleton, List.map_cons, List.map_nil, segChunk_snd]
    norm_num
  · rw [Nat.ceil_eq_iff (by norm_num)]
    norm_num

/-- Witness for C2 at the spec's own example: a 23-second video with
10-second chunks has `ceil(23/10) = 3` chunks. -/
theorem C2_chunk_partition_witness :
    (segmentOne envSegFail [] "out" "v" "src" (23 : ℚ) 10 5).2.chunks.length =
      ⌈((pyInt (23 : ℚ)).toNat : ℚ) / ((10 : ℕ) : ℚ)⌉₊ :=
  (C2_chunk_partition envSegFail [] "out" "v" "src" 23 10 5 (by norm_num) (by norm_num)).1

/-- The path written by `addPath` exists afterwards. -/
theorem mem_addPath (fs : List String) (p : String) : p ∈ addPath fs p := by
  unfold addPath
  split_ifs with h
  · exact h
  · simp

/-- Claim C7 (amended): for every probed video exactly one manifest file
is written, after all chunks are attempted and regardless of individual
extraction failures - the manifest content is entirely independent of the
extraction outcomes and of the pre-existing filesystem; every chunk
appears in it; but each chunk's entry lists the expected audio path and
the complete expected frame path list, not merely the files that were
successfully extracted. -/
theorem C7_manifest (env env2 : SegEnv) (fs fs2 : List String) (od vn sf : String)
    (duration : ℚ) (S N : Nat) (hS : 0 < S) :
    ((od ++ "/" ++ vn ++ "/" ++ vn ++ "_metadata.json") ∈
        (segmentOne env fs od vn sf duration S N).1) ∧
    ((segmentOne env fs od vn sf duration S N).2 =
        (segmentOne env2 fs2 od vn sf duration S N).2) ∧
    ((segmentOne env fs od vn sf duration S N).2.chunks.length =
        (pyRange (pyInt duration).toNat S).length) ∧
    (∀ i : Nat, ∀ hi : i < (segmentOne env fs od vn sf duration S N).2.chunks.length,
      (segmentOne env fs od vn sf duration S N).2.chunks[i] =
        ⟨vn ++ "_chunk_" ++ pad3 i, i * S,
         if ((i * S : ℕ) : ℚ) + S > duration then duration else ((i * S : ℕ) : ℚ) + S,
         (od ++ "/" ++ vn) ++ "/" ++ (vn ++ "_chunk_" ++ pad3 i) ++ "/" ++
           (vn ++ "_chunk_" ++ pad3 i) ++ ".mp3",
         (List.range N).map (fun j => (od ++ "/" ++ vn) ++ "/" ++ (vn ++ "_chunk_" ++ pad3 i) ++
           "/" ++ (vn ++ "_chunk_" ++ pad3 i) ++ "_frame_" ++ toString (j + 1) ++ ".jpg")⟩) := by
  refine ⟨?_, ?_, ?_, ?_⟩
  · simp only [segmentOne]
    exact mem_addPath _ _
  · rw [segmentOne_manifest, segmentOne_manifest]
    have hf : (fun (p : Nat × Nat) =>
          (segChunk env (od ++ "/" ++ vn) vn duration S N [] p.1 p.2).2) =
        (fun (p : Nat × Nat) =>
          (segChunk env2 (od ++ "/" ++ vn) vn duration S N [] p.1 p.2).2) := by
      funext p
      rw [segChunk_snd, segChunk_snd]
    rw [hf]
  · rw [segmentOne_chunks_length env fs od vn sf duration S N hS.ne',
      pyRange_length _ _ hS.ne']
  · intro i hi
    rw [segmentOne_chunk_get env fs od vn sf duration S N hS.ne' i hi, segChunk_snd]

/-- Witness for C7 at the concrete all-fail environment: the manifest file
exists after the run. -/
theorem C7_manifest_witness :
    ("out" ++ "/" ++ "v" ++ "/" ++ "v" ++ "_metadata.json") ∈
      (segmentOne envSegFail [] "out" "v" "src" (10 : ℚ) 10 1).1 :=
  (C7_manifest envSegFail envSegFail [] [] "out" "v" "src" 10 10 1 (by norm_num)).1

/-- Claim C7 counterexample: with every extraction failing, the single
chunk of a 10-second video still receives a manifest entry listing the
frame file that was never successfully extracted - that path is absent
from the filesystem after the run, so the entry does not list "only the
files that did succeed". -/
theorem C7_counterexample :
    ((segmentOne envSegFail [] "out" "v" "src" (10 : ℚ) 10 1).2.chunks.map
        ChunkEntry.frame_files = [["out/v/v_chunk_000/v_chunk_000_frame_1.jpg"]]) ∧
    "out/v/v_chunk_000/v_chunk_000_frame_1.jpg" ∉
      (segmentOne envSegFail [] "out" "v" "src" (10 : ℚ) 10 1).1 := by
  constructor
  · rw [segmentOne_manifest]
    have h1 : (pyInt (10 : ℚ)).toNat = 10 := by decide
    rw [h1]
    have h2 : pyRange 10 10 = [0] := by decide
    rw [h2]
    have h3 : ([0] : List Nat).enum = [(0, 0)] := by decide
    rw [h3]
    simp only [List.map_cons, List.map_nil, segChunk_snd]
    decide
  · simp only [segmentOne]
    have h1 : (pyInt (10 : ℚ)).toNat = 10 := by decide
    rw [h1]
    have h2 : pyRange 10 10 = [0] := by decide
    rw [h2]
    have h3 : ([0] : List Nat).enum = [(0, 0)] := by decide
    rw [h3]
    simp only [List.foldl_cons, List.foldl_nil, segStep, segChunk]
    decide

/-- Claim C8 (amended): for `S, N > 0` the Segmenter computes exactly `N`
frame timestamps for a chunk starting at `T`: the `j`-th equals
`T + j * (S / N)`, consecutive timestamps differ by exactly `S / N`, and
all lie in the chunk's nominal window `[T, T + S)` - which, for the final
clamped chunk, may extend past that chunk's actual end time. -/
theorem C8_frame_times (T S N : Nat) (hS : 0 < S) (hN : 0 < N) :
    ((frameTimes T S N).length = N) ∧
    (∀ j : Nat, ∀ hj : j < (frameTimes T S N).length,
      (frameTimes T S N)[j] = (T : ℚ) + j * ((S : ℚ) / N)) ∧
    (∀ j : Nat, ∀ hj1 : j + 1 < (frameTimes T S N).length,
      ∀ hj : j < (frameTimes T S N).length,
      (frameTimes T S N)[j + 1] - (frameTimes T S N)[j] = (S : ℚ) / N) ∧
    (∀ t ∈ frameTimes T S N, (T : ℚ) ≤ t ∧ t < (T : ℚ) + S) := by
  have hS0 : (0 : ℚ) < (S : ℚ) := by exact_mod_cast hS
  have hN0 : (0 : ℚ) < (N : ℚ) := by exact_mod_cast hN
  have hget : ∀ j : Nat, ∀ hj : j < (frameTimes T S N).length,
      (frameTimes T S N)[j] = (T : ℚ) + j * ((S : ℚ) / N) := by
    intro j hj
    have hj2 : j < (List.range N).length := by
      unfold frameTimes at hj
      rw [List.length_map] at hj
      exact hj
    unfold frameTimes
    rw [List.getElem_map, List.getElem_range]
  refine ⟨by simp [frameTimes], hget, ?_, ?_⟩
  · intro j hj1 hj
    rw [hget _ hj1, hget _ hj]
    push_cast
    ring
  · intro t ht
    unfold frameTimes at ht
    obtain ⟨j, hj, rfl⟩ := List.mem_map.mp ht
    have hjN : j < N := List.mem_range.mp hj
    constructor
    · have h0 : (0 : ℚ) ≤ (j : ℚ) * ((S : ℚ) / N) := by positivity
      linarith
    · have hjQ : (j : ℚ) < (N : ℚ) := by exact_mod_cast hjN
      have h1 : (j : ℚ) * ((S : ℚ) / N) < (N : ℚ) * ((S : ℚ) / N) :=
        mul_lt_mul_of_pos_right hjQ (by positivity)
      have h2 : (N : ℚ) * ((S : ℚ) / N) = (S : ℚ) := by
        field_simp
      linarith

/-- Witness for C8 at `T = 20`, `S = 10`, `N = 5`: five timestamps. -/
theorem C8_frame_times_witness : (frameTimes 20 10 5).length = 5 :=
  (C8_frame_times 20 10 5 (by norm_num) (by norm_num)).1

/-- Claim C8 counterexample: in the 23-second video with 10-second chunks
and 5 frames per chunk, the final clamped chunk spans `[20, 23]`, but its
frame timestamps include `24`, which lies outside that chunk's time
window. -/
theorem C8_counterexample :
    ((segmentOne envSegFail [] "out" "v" "src" (23 : ℚ) 10 5).2.chunks.map
        ChunkEntry.end_time = [10, 20, 23]) ∧
    ((24 : ℚ) ∈ frameTimes 20 10 5) ∧ ¬ ((24 : ℚ) ≤ 23) := by
  refine ⟨?_, ?_, by norm_num⟩
  · rw [segmentOne_manifest]
    have h1 : (pyInt (23 : ℚ)).toNat = 23 := by decide
    rw [h1]
    have h2 : pyRange 23 10 = [0, 10, 20] := by decide
    rw [h2]
    have h3 : ([0, 10, 20] : List Nat).enum = [(0, 0), (1, 10), (2, 20)] := by decide
    rw [h3]
    simp only [List.map_cons, List.map_nil, segChunk_snd]
    norm_num
  · unfold frameTimes
    refine List.mem_map.mpr ⟨2, by decide, ?_⟩
    norm_num

/-! ## Ingestion Coordinator
(`src/setup/03_mp4_embedding.py` and `src/setup/04_image_embedding.py`) -/

/-- A document of the Mongo collection (the Index Store), restricted to
the fields relevant to identity, dedup and content; the embedding vector
is an opaque `List ℚ`. -/
structure MRecord where
  id : String
  naId : String
  title : Option String
  file_type : String
  chunk_text_content : Option String
  start_timestamp : Option ℚ
  end_timestamp : Option ℚ
  embedding : List ℚ
deriving DecidableEq

/-- The Index Store state: the list of inserted documents. -/
abbrev Store := List MRecord

/-- Mongo point lookup by record id (`find_one` on the id field). -/
def hasId (st : Store) (rid : String) : Bool :=
  st.any (fun r => r.id == rid)

/-- Mongo `insert_one`: the store enforces `_id` uniqueness, so a duplicate-key
insert raises; the scripts catch and log the exception, leaving the store
unchanged. -/
def insertOne (st : Store) (r : MRecord) : Store :=
  if hasId st r.id then st else st ++ [r]

/-- One chunk descriptor read from the Segmenter manifest
(`03_mp4_embedding.py` lines 175-176, 186, 201, 234-235). -/
structure VChunk where
  chunk_id : String
  start_time : ℚ
  end_time : ℚ
  audio_file : String
  frame_files : List String
deriving DecidableEq

/-- One `.mp4` digital object of a record together with its located chunk
manifest; `manifest = none` models a missing chunk directory or metadata
file (lines 159-169: skipped with a warning). -/
structure VideoObj where
  objectFilename : String
  objectUrl : Option String
  manifest : Option (List VChunk)
deriving DecidableEq

/-- One Acquirer metadata record, filtered to its `.mp4` digital objects
(lines 134-153). -/
structure VideoItem where
  naId : String
  title : Option String
  videos : List VideoObj
deriving DecidableEq

/-- External collaborators of the video ingestion: audio file existence,
Whisper transcription (`none` = the call failed), frame image loading
(`get_pil_image`: `none` = missing file or decode error, `some tok` an
opaque loaded image), and the Voyage multimodal embedder in document mode
applied to the transcript plus the loaded frame images. -/
structure VidEnv where
  audioExists : String → Bool
  transcribe : String → Option String
  frameImage : String → Option String
  embed : String → List String → Option (List ℚ)

/-- Line 179 / line 225: the deterministic video-chunk record id
`f"{na_id}_{chunk_id}"`. -/
def videoRecordId (naId chunk_id : String) : String :=
  naId ++ "_" ++ chunk_id

/-- The outcome of running one chunk's pipeline (after the dedup check):
the document to insert, if every stage succeeded, plus which external
calls were made. -/
structure ChunkRun where
  record : Option MRecord
  transcribeCalled : Bool
  embedCalled : Bool

/-- Lines 183-237 for one chunk: transcription (`if not transcript` also
rejects an empty transcript), content assembly from the transcript and
the loadable frame images, the minimum-content gate
(`len(input_content) < 2`), embedding, and document construction. -/
def chunkRun (env : VidEnv) (item : VideoItem) (obj : VideoObj) (c : VChunk) : ChunkRun :=
  if env.audioExists c.audio_file then
    match env.transcribe c.audio_file with
    | none => ⟨none, true, false⟩
    | some transcript =>
      if transcript = "" then ⟨none, true, false⟩
      else
        if 1 + (c.frame_files.filterMap env.frameImage).length < 2 then ⟨none, true, false⟩
        else
          match env.embed transcript (c.frame_files.filterMap env.frameImage) with
          | none => ⟨none, true, true⟩
          | some embedding =>
            ⟨some ⟨videoRecordId item.naId c.chunk_id, item.naId, item.title, "video_chunk",
               some transcript, some c.start_time, some c.end_time, embedding⟩,
             true, true⟩
  else ⟨none, false, false⟩

/-- The result of processing one unit: the new store, the number of
documents actually inserted, and which external calls were made. -/
structure StepResult where
  store : Store
  inserted : Nat
  transcribeCalled : Bool
  embedCalled : Bool
deriving DecidableEq

/-- Lines 175-244 for one chunk: the point lookup on the deterministic id
skips the chunk before any transcription, embedding or insert; otherwise
the pipeline runs and on success the document is inserted. -/
def processChunk (env : VidEnv) (item : VideoItem) (obj : VideoObj) (c : VChunk)
    (st : Store) : StepResult :=
  if hasId st (videoRecordId item.naId c.chunk_id) then ⟨st, 0, false, false⟩
  else
    match chunkRun env item obj c with
    | ⟨none, tc, ec⟩ => ⟨st, 0, tc, ec⟩
    | ⟨some doc, tc, ec⟩ =>
      ⟨insertOne st doc, if hasId st doc.id then 0 else 1, tc, ec⟩

/-- Line 175: the loop over the manifest's chunks, threading the store
and counting the inserted documents. -/
def processChunks (env : VidEnv) (item : VideoItem) (obj : VideoObj) :
    List VChunk → Store → Store × Nat
  | [], st => (st, 0)
  | c :: cs, st =>
    let s := processChunk env item obj c st
    let rest := processChunks env item obj cs s.store
    (rest.1, s.inserted + rest.2)

/-- Lines 155-175: one `.mp4` digital object; a missing manifest skips
the video. -/
def processVideoObj (env : VidEnv) (item : VideoItem) (obj : VideoObj) (st : Store) :
    Store × Nat :=
  match obj.manifest with
  | none => (st, 0)
  | some cs => processChunks env item obj cs st

/-- The loop over a record's `.mp4` digital objects. -/
def processVideoObjs (env : VidEnv) (item : VideoItem) :
    List VideoObj → Store → Store × Nat
  | [], st => (st, 0)
  | o :: os, st =>
    let s := processVideoObj env item o st
    let rest := processVideoObjs env item os s.1
    (rest.1, s.2 + rest.2)

/-- Lines 134-244: one metadata record of the video ingestion. -/
def processVideoItem (env : VidEnv) (item : VideoItem) (st : Store) : Store × Nat :=
  processVideoObjs env item item.videos st

/-- Function `process_and_embed_video_files`, lines 126-246: the loop over all
metadata records (connection and configuration validation succeeed). -/
def runVideoIngest (env : VidEnv) : List VideoItem → Store → Store × Nat
  | [], st => (st, 0)
  | it :: its, st =>
    let s := processVideoItem env it st
    let rest := runVideoIngest env its s.1
    (rest.1, s.2 + rest.2)

/-- One digital object descriptor (`04_image_embedding.py` lines
190-204). -/
structure DigitalObject where
  objectFilename : Option String
  objectUrl : Option String
deriving DecidableEq

/-- One metadata record found in a document media-type directory (`pdf`,
`jpg` or `gif` - the other directories are skipped at lines 157-158);
`fileExtension` is the lowercased directory name. -/
structure DocItem where
  naId : String
  title : Option String
  fileExtension : String
  digitalObjects : List DigitalObject
deriving DecidableEq

/-- External collaborators of the document ingestion: image loading with
resize (`none` = missing file or failure), PDF rasterisation (`none` =
failure, otherwise the page images), and the Voyage embedder over the
aggregated image set. -/
structure DocEnv where
  loadImage : String → Option String
  loadPdf : String → Option (List String)
  embed : List String → Option (List ℚ)

/-- Python `str.lower()` (character-wise lowercasing; the NARA filenames
compared here are ASCII). -/
def pyLower (s : String) : String := String.mk (s.data.map Char.toLower)

/-- Python `str.endswith(suffix)`. -/
def pyEndsWith (s suffix : String) : Bool := List.isSuffixOf suffix.data s.data

/-- Lines 190-204: gather the images of one digital object into the
accumulated content set: PDF pages are appended when rasterisation
succeeds, single images on load success, and filenames of any other
extension contribute nothing. -/
def docObjImages (env : DocEnv) (ext : String) (acc : List String)
    (obj : DigitalObject) : List String :=
  match obj.objectFilename with
  | none => acc
  | some fn =>
    let path := "data/nara_downloads/NASA/" ++ ext ++ "/" ++ fn
    if pyEndsWith (pyLower fn) ".pdf" then
      match env.loadPdf path with
      | some imgs => acc ++ imgs
      | none => acc
    else if pyEndsWith (pyLower fn) ".jpg" ∨ pyEndsWith (pyLower fn) ".jpeg" ∨
        pyEndsWith (pyLower fn) ".gif" then
      match env.loadImage path with
      | some img => acc ++ [img]
      | none => acc
    else acc

/-- Lines 180-223 past the dedup check: skip when the record has no
digital objects, aggregate all images of all digital objects, require at
least one, embed them as a single vector, and construct the single
per-item document whose `_id` is the item's `naId` and whose `file_type`
is the media directory name. -/
def itemRun (env : DocEnv) (item : DocItem) : Option MRecord × Bool :=
  if item.digitalObjects = [] then (none, false)
  else
    if (item.digitalObjects.foldl (docObjImages env item.fileExtension) []) = [] then
      (none, false)
    else
      match env.embed (item.digitalObjects.foldl (docObjImages env item.fileExtension) []) with
      | none => (none, true)
      | some embedding =>
        (some ⟨item.naId, item.naId, item.title, item.fileExtension, none, none, none,
          embedding⟩, true)

/-- The document kinds of the dedup query
`{'naId': na_id, 'file_type': {'$in': ['pdf', 'jpg', 'gif']}}`. -/
def isDocKind (r : MRecord) : Bool :=
  r.file_type == "pdf" || r.file_type == "jpg" || r.file_type == "gif"

/-- Lines 175-178: the whole-item dedup check: some record with this
`naId` and a document `file_type` already exists. -/
def existsDocKind (st : Store) (naId : String) : Bool :=
  st.any (fun r => r.naId == naId && isDocKind r)

/-- Lines 169-245 for one metadata record of the document ingestion: skip
the entire item when any document-kind record for its `naId` exists;
otherwise run the pipeline and insert on success. -/
def processDocItem (env : DocEnv) (item : DocItem) (st : Store) : StepResult :=
  if existsDocKind st item.naId then ⟨st, 0, false, false⟩
  else
    match itemRun env item with
    | (none, ec) => ⟨st, 0, false, ec⟩
    | (some doc, ec) =>
      ⟨insertOne st doc, if hasId st doc.id then 0 else 1, false, ec⟩

/-- Function `process_and_embed_media_files`, lines 154-245: the loop over all
document metadata records of all document media-type directories. -/
def runDocIngest (env : DocEnv) : List DocItem → Store → Store × Nat
  | [], st => (st, 0)
  | it :: its, st =>
    let s := processDocItem env it st
    let rest := runDocIngest env its s.store
    (rest.1, s.inserted + rest.2)

/-- Inserting preserves any satisfied `any`-predicate over the store. -/
theorem insertOne_any_mono (st : Store) (r : MRecord) (p : MRecord → Bool)
    (h : st.any p = true) : (insertOne st r).any p = true := by
  unfold insertOne
  split_ifs with hid
  · exact h
  · simp only [List.any_append, h, Bool.true_or]

/-- A record with the inserted document's id exists afterwards. -/
theorem hasId_insertOne_self (st : Store) (doc : MRecord) :
    hasId (insertOne st doc) doc.id = true := by
  unfold insertOne
  split_ifs with h
  · exact h
  · unfold hasId
    simp [List.any_append]

/-- Processing one chunk only adds records. -/
theorem processChunk_any_mono (env : VidEnv) (item : VideoItem) (obj : VideoObj)
    (c : VChunk) (st : Store) (p : MRecord → Bool) (h : st.any p = true) :
    ((processChunk env item obj c st).store).any p = true := by
  unfold processChunk
  split_ifs with hid
  · exact h
  · rcases hcr : chunkRun env item obj c with ⟨orec, tc, ec⟩
    rcases orec with _ | doc
    · simpa using h
    · simpa using insertOne_any_mono st doc p h

/-- The chunk loop only adds records. -/
theorem processChunks_any_mono (env : VidEnv) (item : VideoItem) (obj : VideoObj)
    (cs : List VChunk) (st : Store) (p : MRecord → Bool) (h : st.any p = true) :
    ((processChunks env item obj cs st).1).any p = true := by
  induction cs generalizing st with
  | nil => simpa [processChunks] using h
  | cons c cs ih =>
    simp only [processChunks]
    exact ih _ (processChunk_any_mono env item obj c st p h)

/-- A video object's processing only adds records. -/
theorem processVideoObj_any_mono (env : VidEnv) (item : VideoItem) (obj : VideoObj)
    (st : Store) (p : MRecord → Bool) (h : st.any p = true) :
    ((processVideoObj env item obj st).1).any p = true := by
  unfold processVideoObj
  rcases hm : obj.manifest with _ | cs
  · simpa using h
  · exact processChunks_any_mono env item obj cs st p h

/-- The video-object loop only adds records. -/
theorem processVideoObjs_any_mono (env : VidEnv) (item : VideoItem) (os : List VideoObj)
    (st : Store) (p : MRecord → Bool) (h : st.any p = true) :
    ((processVideoObjs env item os st).1).any p = true := by
  induction os generalizing st with
  | nil => simpa [processVideoObjs] using h
  | cons o os ih =>
    simp only [processVideoObjs]
    exact ih _ (processVideoObj_any_mono env item o st p h)

/-- The video ingestion only adds records. -/
theorem runVideoIngest_any_mono (env : VidEnv) (items : List VideoItem) (st : Store)
    (p : MRecord → Bool) (h : st.any p = true) :
    ((runVideoIngest env items st).1).any p = true := by
  induction items generalizing st with
  | nil => simpa [runVideoIngest] using h
  | cons it its ih =>
    simp only [runVideoIngest]
    exact ih _ (processVideoObjs_any_mono env it it.videos st p h)

/-- A successful chunk pipeline yields a document whose id is the
deterministic `{naId}_{chunkId}`, whose `naId` is the item's, and whose
kind is `video_chunk`. -/
theorem chunkRun_some (env : VidEnv) (item : VideoItem) (obj : VideoObj) (c : VChunk)
    (doc : MRecord) (h : (chunkRun env item obj c).record = some doc) :
    doc.id = videoRecordId item.naId c.chunk_id ∧ doc.naId = item.naId ∧
      doc.file_type = "video_chunk" := by
  unfold chunkRun at h
  split at h
  · split at h
    · simp at h
    · split at h
      · simp at h
      · split at h
        · simp at h
        · split at h
          · simp at h
          · simp only [Option.some.injEq] at h
            subst h
            exact ⟨rfl, rfl, rfl⟩
  · simp at h

/-- After `processChunk`, a chunk whose pipeline would succeed has its
deterministic id present in the store. -/
theorem processChunk_sat (env : VidEnv) (item : VideoItem) (obj : VideoObj) (c : VChunk)
    (st : Store) (h : (chunkRun env item obj c).record ≠ none) :
    hasId (processChunk env item obj c st).store
      (videoRecordId item.naId c.chunk_id) = true := by
  unfold processChunk
  split_ifs with hid
  · exact hid
  · rcases hcr : chunkRun env item obj c with ⟨orec, tc, ec⟩
    rcases orec with _ | doc
    · rw [hcr] at h
      simp at h
    · have hdoc := chunkRun_some env item obj c doc (by rw [hcr])
      simp only
      rw [← hdoc.1]
      exact hasId_insertOne_self st doc

/-- After the chunk loop, every chunk whose pipeline would succeed has
its deterministic id present in the store. -/
theorem processChunks_sat (env : VidEnv) (item : VideoItem) (obj : VideoObj)
    (cs : List VChunk) (st : Store) (c : VChunk) (hc : c ∈ cs)
    (hne : (chunkRun env item obj c).record ≠ none) :
    hasId (processChunks env item obj cs st).1
      (videoRecordId item.naId c.chunk_id) = true := by
  induction cs generalizing st with
  | nil => cases hc
  | cons c0 cs ih =>
    simp only [processChunks]
    rcases List.mem_cons.mp hc with rfl | hmem
    · exact processChunks_any_mono env item obj cs _ _
        (processChunk_sat env item obj c st hne)
    · exact ih _ hmem

/-- Same, at the level of one video object. -/
theorem processVideoObj_sat (env : VidEnv) (item : VideoItem) (obj : VideoObj)
    (st : Store) (cs : List VChunk) (hm : obj.manifest = some cs) (c : VChunk)
    (hc : c ∈ cs) (hne : (chunkRun env item obj c).record ≠ none) :
    hasId (processVideoObj env item obj st).1
      (videoRecordId item.naId c.chunk_id) = true := by
  unfold processVideoObj
  rw [hm]
  exact processChunks_sat env item obj cs st c hc hne

/-- Same, at the level of the video-object loop. -/
theorem processVideoObjs_sat (env : VidEnv) (item : VideoItem) (os : List VideoObj)
    (st : Store) (obj : VideoObj) (hobj : obj ∈ os) (cs : List VChunk)
    (hm : obj.manifest = some cs) (c : VChunk) (hc : c ∈ cs)
    (hne : (chunkRun env item obj c).record ≠ none) :
    hasId (processVideoObjs env item os st).1
      (videoRecordId item.naId c.chunk_id) = true := by
  induction os generalizing st with
  | nil => cases hobj
  | cons o os ih =>
    simp only [processVideoObjs]
    rcases List.mem_cons.mp hobj with rfl | hmem
    · exact processVideoObjs_any_mono env item os _ _
        (processVideoObj_sat env item obj st cs hm c hc hne)
    · exact ih _ hmem

/-- Same, at the level of the whole video ingestion run. -/
theorem runVideoIngest_sat (env : VidEnv) (items : List VideoItem) (st : Store)
    (item : VideoItem) (hitem : item ∈ items) (obj : VideoObj)
    (hobj : obj ∈ item.videos) (cs : List VChunk) (hm : obj.manifest = some cs)
    (c : VChunk) (hc : c ∈ cs) (hne : (chunkRun env item obj c).record ≠ none) :
    hasId (runVideoIngest env items st).1
      (videoRecordId item.naId c.chunk_id) = true := by
  induction items generalizing st with
  | nil => cases hitem
  | cons it its ih =>
    simp only [runVideoIngest]
    rcases List.mem_cons.mp hitem with rfl | hmem
    · exact runVideoIngest_any_mono env its _ _
        (processVideoObjs_sat env item item.videos st obj hobj cs hm c hc hne)
    · exact ih _ hmem

/-- A chunk whose pipeline would fail, or whose id is already present,
leaves the store unchanged and inserts nothing. -/
theorem processChunk_no_insert (env : VidEnv) (item : VideoItem) (obj : VideoObj)
    (c : VChunk) (st : Store)
    (h : (chunkRun env item obj c).record ≠ none →
      hasId st (videoRecordId item.naId c.chunk_id) = true) :
    (processChunk env item obj c st).store = st ∧
      (processChunk env item obj c st).inserted = 0 := by
  unfold processChunk
  split_ifs with hid
  · exact ⟨rfl, rfl⟩
  · rcases hcr : chunkRun env item obj c with ⟨orec, tc, ec⟩
    rcases orec with _ | doc
    · exact ⟨rfl, rfl⟩
    · exact absurd (h (by rw [hcr]; simp)) hid

/-- A saturated store makes the chunk loop a no-op. -/
theorem processChunks_zero (env : VidEnv) (item : VideoItem) (obj : VideoObj)
    (cs : List VChunk) (st : Store)
    (h : ∀ c ∈ cs, (chunkRun env item obj c).record ≠ none →
      hasId st (videoRecordId item.naId c.chunk_id) = true) :
    processChunks env item obj cs st = (st, 0) := by
  induction cs with
  | nil => rfl
  | cons c cs ih =>
    have hstep := processChunk_no_insert env item obj c st (h c (List.mem_cons_self c cs))
    simp only [processChunks]
    rw [hstep.1, hstep.2, ih (fun c2 hc2 => h c2 (List.mem_cons_of_mem _ hc2))]
    simp

/-- A saturated store makes a video object's processing a no-op. -/
theorem processVideoObj_zero (env : VidEnv) (item : VideoItem) (obj : VideoObj)
    (st : Store)
    (h : ∀ cs, obj.manifest = some cs → ∀ c ∈ cs,
      (chunkRun env item obj c).record ≠ none →
      hasId st (videoRecordId item.naId c.chunk_id) = true) :
    processVideoObj env item obj st = (st, 0) := by
  unfold processVideoObj
  rcases hm : obj.manifest with _ | cs
  · rfl
  · exact processChunks_zero env item obj cs st (h cs hm)

/-- A saturated store makes the video-object loop a no-op. -/
theorem processVideoObjs_zero (env : VidEnv) (item : VideoItem) (os : List VideoObj)
    (st : Store)
    (h : ∀ obj ∈ os, ∀ cs, obj.manifest = some cs → ∀ c ∈ cs,
      (chunkRun env item obj c).record ≠ none →
      hasId st (videoRecordId item.naId c.chunk_id) = true) :
    processVideoObjs env item os st = (st, 0) := by
  induction os with
  | nil => rfl
  | cons o os ih =>
    have h0 := processVideoObj_zero env item o st (h o (List.mem_cons_self o os))
    simp only [processVideoObjs]
    rw [h0, ih (fun o2 ho2 => h o2 (List.mem_cons_of_mem _ ho2))]
    simp

/-- A saturated store makes the whole video ingestion a no-op. -/
theorem runVideoIngest_zero (env : VidEnv) (items : List VideoItem) (st : Store)
    (h : ∀ item ∈ items, ∀ obj ∈ item.videos, ∀ cs, obj.manifest = some cs →
      ∀ c ∈ cs, (chunkRun env item obj c).record ≠ none →
      hasId st (videoRecordId item.naId c.chunk_id) = true) :
    runVideoIngest env items st = (st, 0) := by
  induction items with
  | nil => rfl
  | cons it its ih =>
    have h0 := processVideoObjs_zero env it it.videos st
      (fun obj hobj => h it (List.mem_cons_self it its) obj hobj)
    simp only [runVideoIngest, processVideoItem]
    rw [h0, ih (fun it2 hit2 => h it2 (List.mem_cons_of_mem _ hit2))]
    simp

/-- Processing one document item only adds records. -/
theorem processDocItem_any_mono (env : DocEnv) (item : DocItem) (st : Store)
    (p : MRecord → Bool) (h : st.any p = true) :
    ((processDocItem env item st).store).any p = true := by
  unfold processDocItem
  split_ifs with hd
  · exact h
  · rcases hir : itemRun env item with ⟨orec, ec⟩
    rcases orec with _ | doc
    · simpa using h
    · simpa using insertOne_any_mono st doc p h

/-- The document ingestion only adds records. -/
theorem runDocIngest_any_mono (env : DocEnv) (items : List DocItem) (st : Store)
    (p : MRecord → Bool) (h : st.any p = true) :
    ((runDocIngest env items st).1).any p = true := by
  induction items generalizing st with
  | nil => simpa [runDocIngest] using h
  | cons it its ih =>
    simp only [runDocIngest]
    exact ih _ (processDocItem_any_mono env it st p h)

/-- A successful document pipeline yields a document whose `_id` and
`naId` are the item's `naId` and whose kind is the media directory
name. -/
theorem itemRun_some (env : DocEnv) (item : DocItem) (doc : MRecord)
    (h : (itemRun env item).1 = some doc) :
    doc.id = item.naId ∧ doc.naId = item.naId ∧ doc.file_type = item.fileExtension := by
  unfold itemRun at h
  split at h
  · simp at h
  · split at h
    · simp at h
    · split at h
      · simp at h
      · simp only [Option.some.injEq] at h
        subst h
        exact ⟨rfl, rfl, rfl⟩

/-- After `processDocItem`, an item whose pipeline would succeed is
covered: a document-kind record for its `naId` existed already, or a
record whose id is the `naId` is now present. -/
theorem processDocItem_sat (env : DocEnv) (item : DocItem) (st : Store) :
    existsDocKind (processDocItem env item st).store item.naId = true ∨
    (itemRun env item).1 = none ∨
    hasId (processDocItem env item st).store item.naId = true := by
  unfold processDocItem
  split_ifs with hd
  · exact Or.inl hd
  · rcases hir : itemRun env item with ⟨orec, ec⟩
    rcases orec with _ | doc
    · exact Or.inr (Or.inl rfl)
    · right; right
      have hdoc := itemRun_some env item doc (by rw [hir])
      simp only
      rw [← hdoc.1]
      exact hasId_insertOne_self st doc

/-- After the document ingestion run, every processed item is covered. -/
theorem runDocIngest_sat (env : DocEnv) (items : List DocItem) (st : Store)
    (item : DocItem) (hitem : item ∈ items) :
    existsDocKind (runDocIngest env items st).1 item.naId = true ∨
    (itemRun env item).1 = none ∨
    hasId (runDocIngest env items st).1 item.naId = true := by
  induction items generalizing st with
  | nil => cases hitem
  | cons it its ih =>
    simp only [runDocIngest]
    rcases List.mem_cons.mp hitem with rfl | hmem
    · rcases processDocItem_sat env item st with h | h | h
      · exact Or.inl (runDocIngest_any_mono env its _ _ h)
      · exact Or.inr (Or.inl h)
      · exact Or.inr (Or.inr (runDocIngest_any_mono env its _ _ h))
    · exact ih _ hmem

/-- A covered item makes `processDocItem` a no-op. -/
theorem processDocItem_no_insert (env : DocEnv) (item : DocItem) (st : Store)
    (h : existsDocKind st item.naId = true ∨ (itemRun env item).1 = none ∨
      hasId st item.naId = true) :
    (processDocItem env item st).store = st ∧
      (processDocItem env item st).inserted = 0 := by
  unfold processDocItem
  split_ifs with hd
  · exact ⟨rfl, rfl⟩
  · rcases hir : itemRun env item with ⟨orec, ec⟩
    rcases orec with _ | doc
    · exact ⟨rfl, rfl⟩
    · have hdoc := itemRun_some env item doc (by rw [hir])
      have hid : hasId st doc.id = true := by
        rcases h with h | h | h
        · exact absurd h hd
        · rw [hir] at h
          simp at h
        · rw [hdoc.1]
          exact h
      constructor
      · simp only
        unfold insertOne
        rw [if_pos hid]
      · simp only
        rw [if_pos hid]

/-- A fully covered store makes the document ingestion a no-op. -/
theorem runDocIngest_zero (env : DocEnv) (items : List DocItem) (st : Store)
    (h : ∀ item ∈ items, existsDocKind st item.naId = true ∨
      (itemRun env item).1 = none ∨ hasId st item.naId = true) :
    runDocIngest env items st = (st, 0) := by
  induction items with
  | nil => rfl
  | cons it its ih =>
    have h0 := processDocItem_no_insert env it st (h it (List.mem_cons_self it its))
    simp only [runDocIngest]
    rw [h0.1, h0.2, ih (fun it2 hit2 => h it2 (List.mem_cons_of_mem _ hit2))]
    simp

/-- Claim C1: running either ingestion variant a second time over the
same inputs, against the store state left by the first run, performs zero
new inserts and leaves the store unchanged; moreover a video chunk whose
deterministic record id already exists is skipped before any
transcription, embedding, or insert, and an item that already has a
document-kind record is skipped entirely (no embedding call, no
insert). -/
theorem C1_idempotent :
    (∀ (env : VidEnv) (items : List VideoItem) (st : Store),
      runVideoIngest env items (runVideoIngest env items st).1 =
        ((runVideoIngest env items st).1, 0)) ∧
    (∀ (env : DocEnv) (items : List DocItem) (st : Store),
      runDocIngest env items (runDocIngest env items st).1 =
        ((runDocIngest env items st).1, 0)) ∧
    (∀ (env : VidEnv) (item : VideoItem) (obj : VideoObj) (c : VChunk) (st : Store),
      hasId st (videoRecordId item.naId c.chunk_id) = true →
      processChunk env item obj c st = ⟨st, 0, false, false⟩) ∧
    (∀ (env : DocEnv) (item : DocItem) (st : Store),
      existsDocKind st item.naId = true →
      processDocItem env item st = ⟨st, 0, false, false⟩) := by
  refine ⟨?_, ?_, ?_, ?_⟩
  · intro env items st
    exact runVideoIngest_zero env items _
      (fun item hitem obj hobj cs hm c hc hne =>
        runVideoIngest_sat env items st item hitem obj hobj cs hm c hc hne)
  · intro env items st
    exact runDocIngest_zero env items _
      (fun item hitem => runDocIngest_sat env items st item hitem)
  · intro env item obj c st h
    unfold processChunk
    rw [if_pos h]
  · intro env item st h
    unfold processDocItem
    rw [if_pos h]

/-- A video-ingestion environment in which every external call
succeeds. -/
def envVgood : VidEnv :=
  ⟨fun _ => true, fun _ => some "t", fun _ => some "img", fun _ _ => some [1]⟩

/-- Witness video item. -/
def itemW : VideoItem := ⟨"42", none, []⟩

/-- Witness video digital object. -/
def objW : VideoObj := ⟨"v.mp4", none, none⟩

/-- Witness manifest chunk. -/
def chunkW : VChunk := ⟨"chunk_000", 0, 10, "a.mp3", ["f.jpg"]⟩

/-- The document the witness chunk pipeline produces. -/
def docW : MRecord :=
  ⟨"42_chunk_000", "42", none, "video_chunk", some "t", some 0, some 10, [1]⟩

/-- A document-ingestion environment in which every external call
succeeds. -/
def envDgood : DocEnv :=
  ⟨fun _ => some "img", fun _ => some ["p"], fun _ => some [1]⟩

/-- Witness document item (one `jpg` digital object). -/
def itemDW : DocItem := ⟨"7", none, "jpg", [⟨some "a.jpg", none⟩]⟩

/-- The document the witness item pipeline produces. -/
def docDW : MRecord := ⟨"7", "7", none, "jpg", none, none, none, [1]⟩

/-- Witness for C1: with the deterministic id (resp. a document-kind
record) already in the store, the chunk (resp. the item) is skipped with
no store change, no external calls, no insert. -/
theorem C1_idempotent_witness :
    (hasId [docW] (videoRecordId itemW.naId chunkW.chunk_id) = true) ∧
    (processChunk envVgood itemW objW chunkW [docW] = ⟨[docW], 0, false, false⟩) ∧
    (existsDocKind [docDW] itemDW.naId = true) ∧
    (processDocItem envDgood itemDW [docDW] = ⟨[docDW], 0, false, false⟩) :=
  ⟨by decide, C1_idempotent.2.2.1 envVgood itemW objW chunkW [docW] (by decide),
   by decide, C1_idempotent.2.2.2 envDgood itemDW [docDW] (by decide)⟩

/-- Claim C3: a video-chunk document's id is exactly `{naId}_{chunkId}`, a
whole-document item's id is exactly its `naId`, and these ids depend only
on the item id and chunk id - any two successful pipeline runs over equal
ids compute equal record ids. -/
theorem C3_deterministic_ids :
    (∀ (env : VidEnv) (item : VideoItem) (obj : VideoObj) (c : VChunk) (doc : MRecord),
      (chunkRun env item obj c).record = some doc →
      doc.id = item.naId ++ "_" ++ c.chunk_id) ∧
    (∀ (env : DocEnv) (item : DocItem) (doc : MRecord),
      (itemRun env item).1 = some doc → doc.id = item.naId) ∧
    (∀ (env env2 : VidEnv) (item item2 : VideoItem) (obj obj2 : VideoObj)
      (c c2 : VChunk) (doc doc2 : MRecord),
      item.naId = item2.naId → c.chunk_id = c2.chunk_id →
      (chunkRun env item obj c).record = some doc →
      (chunkRun env2 item2 obj2 c2).record = some doc2 → doc.id = doc2.id) ∧
    (∀ (env env2 : DocEnv) (item item2 : DocItem) (doc doc2 : MRecord),
      item.naId = item2.naId →
      (itemRun env item).1 = some doc → (itemRun env2 item2).1 = some doc2 →
      doc.id = doc2.id) := by
  refine ⟨?_, ?_, ?_, ?_⟩
  · intro env item obj c doc h
    exact (chunkRun_some env item obj c doc h).1
  · intro env item doc h
    exact (itemRun_some env item doc h).1
  · intro env env2 item item2 obj obj2 c c2 doc doc2 hna hcid h1 h2
    rw [(chunkRun_some env item obj c doc h1).1,
      (chunkRun_some env2 item2 obj2 c2 doc2 h2).1]
    unfold videoRecordId
    rw [hna, hcid]
  · intro env env2 item item2 doc doc2 hna h1 h2
    rw [(itemRun_some env item doc h1).1, (itemRun_some env2 item2 doc2 h2).1, hna]

/-- Witness for C3: the concrete successful pipelines compute
`42_chunk_000` and `7`. -/
theorem C3_deterministic_ids_witness :
    ((chunkRun envVgood itemW objW chunkW).record = some docW) ∧
    docW.id = itemW.naId ++ "_" ++ chunkW.chunk_id ∧
    ((itemRun envDgood itemDW).1 = some docDW) ∧
    docDW.id = itemDW.naId :=
  ⟨by decide, C3_deterministic_ids.1 envVgood itemW objW chunkW docW (by decide),
   by decide, C3_deterministic_ids.2.1 envDgood itemDW docDW (by decide)⟩

/-- The at-most-one-document-kind-record-per-item invariant: no two
distinct records of the store both carry a document kind and the same
`naId`. -/
def docInvariant (st : Store) : Prop :=
  st.Pairwise (fun a b => isDocKind a = true → isDocKind b = true → a.naId ≠ b.naId)

/-- One document-ingestion step preserves the invariant: the pre-insert
existence check only lets an item through when no document-kind record
with its `naId` exists, and the inserted record's `naId` is the item's. -/
theorem processDocItem_invariant (env : DocEnv) (item : DocItem) (st : Store)
    (h : docInvariant st) : docInvariant (processDocItem env item st).store := by
  unfold processDocItem
  split_ifs with hd
  · exact h
  · rcases hir : itemRun env item with ⟨orec, ec⟩
    rcases orec with _ | doc
    · exact h
    · simp only
      unfold insertOne
      split_ifs with hid
      · exact h
      · have hdoc := itemRun_some env item doc (by rw [hir])
        unfold docInvariant at h ⊢
        rw [List.pairwise_append]
        refine ⟨h, List.pairwise_singleton _ _, ?_⟩
        intro a ha b hb hka hkb
        have hb2 : b = doc := by simpa using hb
        subst hb2
        rw [hdoc.2.1]
        intro heq
        apply hd
        unfold existsDocKind
        rw [List.any_eq_true]
        refine ⟨a, ha, ?_⟩
        rw [Bool.and_eq_true, beq_iff_eq]
        exact ⟨heq, hka⟩

/-- Claim C9: the document-media ingestion preserves the property that,
for each item id, at most one record with a document kind (`pdf`, `jpg`,
`gif`) exists in the Index Store. -/
theorem C9_doc_dedup_invariant (env : DocEnv) (items : List DocItem) (st : Store)
    (h : docInvariant st) : docInvariant (runDocIngest env items st).1 := by
  induction items generalizing st with
  | nil => simpa [runDocIngest] using h
  | cons it its ih =>
    simp only [runDocIngest]
    exact ih _ (processDocItem_invariant env it st h)

/-- Witness for C9: from the empty store, ingesting the witness item
preserves the invariant. -/
theorem C9_doc_dedup_invariant_witness :
    docInvariant ([] : Store) ∧
      docInvariant (runDocIngest envDgood [itemDW] ([] : Store)).1 :=
  ⟨List.Pairwise.nil, C9_doc_dedup_invariant envDgood [itemDW] [] List.Pairwise.nil⟩

/-! ## Acquirer (`src/setup/01_nara_scrape.py`) -/

/-- One digital object descriptor of a scraped catalog record (URL and
filename may be absent). -/
structure ScrapeObj where
  objectUrl : Option String
  objectFilename : Option String
deriving DecidableEq

/-- One catalog record of an API result page; `naId = ""` models an
absent or falsy `naId` (the metadata save at line 176 is guarded by
`if na_id:`). -/
structure ScrapeRecord where
  naId : String
  digitalObjects : List ScrapeObj
deriving DecidableEq

/-- The download collaborator: whether `download_file_requests` for a URL
succeeds.  The function catches `RequestException` itself (lines 65-73)
and returns normally either way, so a failure is invisible to its
caller. -/
structure ScrapeEnv where
  download : String → Bool

/-- The filesystem of the acquisition stage: the metadata record files
and the downloaded media files that exist. -/
structure ScrapeFS where
  records : List String
  downloads : List String
deriving DecidableEq

/-- Lines 150-173: the loop over a record's digital objects: for each
object carrying both a URL and a filename, download unless a file of that
name already exists; a failed download is logged and swallowed (no file
appears, nothing is raised).  Returns the new download set and the number
of download attempts. -/
def scrapeObjsLoop (env : ScrapeEnv) (mediaType : String) :
    List ScrapeObj → List String → List String × Nat
  | [], dls => (dls, 0)
  | obj :: objs, dls =>
    match obj.objectUrl, obj.objectFilename with
    | some url, some fn =>
      let fp := "data/nara_downloads/NASA/" ++ mediaType ++ "/" ++ fn
      if fp ∈ dls then scrapeObjsLoop env mediaType objs dls
      else
        let rest := scrapeObjsLoop env mediaType objs
          (if env.download url then dls ++ [fp] else dls)
        (rest.1, rest.2 + 1)
    | _, _ => scrapeObjsLoop env mediaType objs dls

/-- Lines 124-179: processing one record of a result page: skip entirely
when its metadata file already exists (the sole resumability marker of
the acquisition stage, lines 129-132); skip when the record has no
digital objects (lines 136-137); otherwise attempt the downloads and
then - download failures notwithstanding - write the metadata file, which
is guarded only by `if na_id:` (lines 176-179). -/
def processScrapeRecord (env : ScrapeEnv) (mediaType : String) (fs : ScrapeFS)
    (r : ScrapeRecord) : ScrapeFS × Nat :=
  if ("data/nara_records/NASA/" ++ mediaType ++ "/" ++ r.naId ++ ".json") ∈ fs.records then
    (fs, 0)
  else if r.digitalObjects = [] then (fs, 0)
  else
    if r.naId ≠ "" then
      (⟨fs.records ++ ["data/nara_records/NASA/" ++ mediaType ++ "/" ++ r.naId ++ ".json"],
        (scrapeObjsLoop env mediaType r.digitalObjects fs.downloads).1⟩,
       (scrapeObjsLoop env mediaType r.digitalObjects fs.downloads).2)
    else
      (⟨fs.records, (scrapeObjsLoop env mediaType r.digitalObjects fs.downloads).1⟩,
       (scrapeObjsLoop env mediaType r.digitalObjects fs.downloads).2)

/-- A record whose metadata file exists is skipped: no state change, zero
download attempts. -/
theorem processScrapeRecord_skip (env : ScrapeEnv) (mediaType : String) (fs : ScrapeFS)
    (r : ScrapeRecord)
    (h : ("data/nara_records/NASA/" ++ mediaType ++ "/" ++ r.naId ++ ".json")
      ∈ fs.records) :
    processScrapeRecord env mediaType fs r = (fs, 0) := by
  unfold processScrapeRecord
  rw [if_pos h]

/-- Claim C10: for a record not yet scraped, with an id and at least one
digital object, the metadata file is written whatever the download
outcomes are (the download error is caught and swallowed); hence on every
subsequent run the record is skipped entirely - no state change, zero
download attempts - and a failed download is never retried. -/
theorem C10_failed_download_not_retried (env env2 : ScrapeEnv) (mediaType : String)
    (fs : ScrapeFS) (r : ScrapeRecord)
    (hnew : ("data/nara_records/NASA/" ++ mediaType ++ "/" ++ r.naId ++ ".json")
      ∉ fs.records)
    (hid : r.naId ≠ "")
    (hobjs : r.digitalObjects ≠ []) :
    (("data/nara_records/NASA/" ++ mediaType ++ "/" ++ r.naId ++ ".json")
      ∈ (processScrapeRecord env mediaType fs r).1.records) ∧
    (processScrapeRecord env2 mediaType (processScrapeRecord env mediaType fs r).1 r =
      ((processScrapeRecord env mediaType fs r).1, 0)) := by
  have h1 : ("data/nara_records/NASA/" ++ mediaType ++ "/" ++ r.naId ++ ".json")
      ∈ (processScrapeRecord env mediaType fs r).1.records := by
    unfold processScrapeRecord
    rw [if_neg hnew, if_neg hobjs, if_pos hid]
    simp
  exact ⟨h1, processScrapeRecord_skip env2 mediaType _ r h1⟩

/-- A download environment in which every download fails. -/
def envScrFail : ScrapeEnv := ⟨fun _ => false⟩

/-- Witness scrape record: one digital object with URL and filename. -/
def scrRecW : ScrapeRecord := ⟨"9", [⟨some "u", some "u.mp4"⟩]⟩

/-- Witness for C10: with every download failing and an empty filesystem,
the metadata file is written and the second run is a no-op with zero
download attempts. -/
theorem C10_failed_download_not_retried_witness :
    (("data/nara_records/NASA/" ++ "mp4" ++ "/" ++ scrRecW.naId ++ ".json")
      ∈ (processScrapeRecord envScrFail "mp4" ⟨[], []⟩ scrRecW).1.records) ∧
    (processScrapeRecord envScrFail "mp4"
        (processScrapeRecord envScrFail "mp4" ⟨[], []⟩ scrRecW).1 scrRecW =
      ((processScrapeRecord envScrFail "mp4" ⟨[], []⟩ scrRecW).1, 0)) :=
  C10_failed_download_not_retried envScrFail envScrFail "mp4" ⟨[], []⟩ scrRecW
    (by decide) (by decide) (by decide)

end NasaDemo
